import Mathlib

/-!
Verification of the `economic_agent` repository (files
`economic_agent/schemas.py` and `economic_agent/run.py`) against its
natural-language specification.

Shallow embedding conventions:
* Python floats are modelled as rationals (`ℚ`); the numeric values the
  program manipulates are exact small decimals, and no claim is about
  floating-point rounding.
* Python dicts with string keys and numeric values (`token_balances`,
  `price_feeds`, `initial_holdings`) are modelled as insertion-ordered
  association lists; assignment replaces the first matching key in place
  and otherwise appends, matching CPython dict semantics (keys are unique
  in every dict the program builds).
* The free-form transaction / tx_data dicts are modelled by the `PyDict`
  structure: one optional field per key the source ever reads.  A field
  equal to `none` models the key being absent.  Values are typed as the
  source expects them (amounts numeric, symbols strings); dynamically
  ill-typed values are outside the embedding.
* Python exceptions are modelled explicitly (the `raised` constructor of
  `DispatchResult`, and `Except String` for `create`); the top-level
  `try/except` of `run` is the catch that converts an exception into an
  envelope.  Error-message strings follow the CPython messages except
  that the single-quote characters CPython puts around names are omitted.
* Operation names beginning with an underscore resolve through Python
  attribute inheritance (the dunder machinery of `object`), whose
  behavior is environment-specific; the dispatcher marks them
  `unmodeled` and no theorem says anything about them.
* `uuid.uuid4()` and `eth_account.Account.create()` are external entropy
  sources; they are modelled by a `Fresh` value passed into `run`
  (the dispatcher consumes it only when it constructs a new module).
-/

namespace EconAgent

/-- Insertion-ordered association list modelling a Python dict from
string keys to numeric values. -/
abbrev SymDict := List (String × ℚ)

/-- Python `d.get(k, dflt)`: value of the first (unique) binding of `k`,
or the default. -/
def dictGet (d : SymDict) (k : String) (dflt : ℚ) : ℚ :=
  match d with
  | [] => dflt
  | (k2, v) :: rest => if k2 = k then v else dictGet rest k dflt

/-- Python `d[k] = v`: replace the binding of `k` in place if present,
otherwise append it at the end (CPython insertion order). -/
def dictSet (d : SymDict) (k : String) (v : ℚ) : SymDict :=
  match d with
  | [] => [(k, v)]
  | (k2, v2) :: rest => if k2 = k then (k, v) :: rest else (k2, v2) :: dictSet rest k v

/-- Python `d.update(upd)`: per-key assignment, in the iteration order of
`upd`. -/
def dictUpdate (d : SymDict) (upd : SymDict) : SymDict :=
  upd.foldl (fun acc kv => dictSet acc kv.1 kv.2) d

/-- Model of the free-form Python dicts passed as transactions /
`tx_data` / `func_input_data`.  One optional field per string key the
source ever reads; `none` models the key being absent.  `fromField`
models the Python key `"from"` (a Lean keyword). -/
structure PyDict where
  type : Option String := none
  symbol : Option String := none
  amount : Option ℚ := none
  initial_holdings : Option SymDict := none
  price_feeds : Option SymDict := none
  default_price : Option ℚ := none
  toAddr : Option String := none
  value : Option ℚ := none
  data : Option String := none
  nonce : Option ℚ := none
  gas : Option ℚ := none
  maxFeePerGas : Option ℚ := none
  maxPriorityFeePerGas : Option ℚ := none
  chainId : Option ℚ := none
  fromField : Option String := none
  deriving DecidableEq

/-- `schemas.py` `Portfolio`: per-symbol balances plus the append-only
transaction history. -/
structure Portfolio where
  token_balances : SymDict := []
  transaction_history : List PyDict := []
  deriving DecidableEq

/-- `Portfolio.get_token_balance`: `self.token_balances.get(symbol, 0.0)`. -/
def Portfolio.get_token_balance (p : Portfolio) (symbol : String) : ℚ :=
  dictGet p.token_balances symbol 0

/-- `Portfolio.adjust_token_balance`: read the current balance (default 0)
and store `current + delta`. -/
def Portfolio.adjust_token_balance (p : Portfolio) (symbol : String) (delta : ℚ) : Portfolio :=
  { p with token_balances :=
      dictSet p.token_balances symbol (dictGet p.token_balances symbol 0 + delta) }

/-- `Portfolio.record_transaction`: append `tx` to the history, then, if
both the `symbol` and `amount` keys are present, adjust the balance. -/
def Portfolio.record_transaction (p : Portfolio) (tx : PyDict) : Portfolio :=
  match tx.symbol, tx.amount with
  | some s, some a =>
      (Portfolio.mk p.token_balances (p.transaction_history ++ [tx])).adjust_token_balance s a
  | _, _ => Portfolio.mk p.token_balances (p.transaction_history ++ [tx])

/-- `Portfolio.get_total_value`: `if not price_feeds: price_feeds = {}`
(both `None` and the empty dict are falsy), then sum
`balance * price_feeds.get(symbol, default_price)` over `token_balances`
in insertion order. -/
def Portfolio.get_total_value (p : Portfolio) (price_feeds : Option SymDict)
    (default_price : ℚ) : ℚ :=
  let pf : SymDict :=
    match price_feeds with
    | none => []
    | some l => l
  (p.token_balances.map (fun sb => sb.2 * dictGet pf sb.1 default_price)).sum

/-- The keypair produced by `eth_account.Account.create()`: the hex of the
private key and the derived address (an external entropy source). -/
structure KeyGen where
  privateKey : String
  address : String
  deriving DecidableEq

/-- `schemas.py` `AgentWallet` (chain defaults to `"ethereum"`). -/
structure AgentWallet where
  chain : String := "ethereum"
  address : Option String := none
  private_key : Option String := none
  deriving DecidableEq

/-- Python truthiness of an optional string: `None` and `""` are falsy. -/
def strFalsy : Option String → Bool
  | none => true
  | some s => s = ""

/-- `BaseWallet.ensure_valid_wallet`: if `self.private_key` is falsy,
store the generated key and derived address; otherwise a no-op. -/
def AgentWallet.ensure_valid_wallet (w : AgentWallet) (kg : KeyGen) : AgentWallet :=
  if strFalsy w.private_key then
    { w with private_key := some kg.privateKey, address := some kg.address }
  else w

/-- The dict built by `AgentWallet.format_transaction`.  `fromField`
models the Python key `"from"`. -/
structure FormattedTx where
  fromField : Option String
  toAddr : Option String
  value : ℚ
  data : String
  chainId : ℚ
  nonce : ℚ
  gas : ℚ
  maxFeePerGas : ℚ
  maxPriorityFeePerGas : ℚ
  deriving DecidableEq

/-- `AgentWallet.format_transaction`: `from` is always the wallet address
and `chainId` is the hard-coded literal `1`; the remaining fields come
from `tx_data` with the defaults written in the source. -/
def AgentWallet.format_transaction (w : AgentWallet) (tx_data : PyDict) : FormattedTx :=
  { fromField := w.address
  , toAddr := tx_data.toAddr
  , value := tx_data.value.getD 0
  , data := tx_data.data.getD "0x"
  , chainId := 1
  , nonce := tx_data.nonce.getD 0
  , gas := tx_data.gas.getD 21000
  , maxFeePerGas := tx_data.maxFeePerGas.getD 20000000000
  , maxPriorityFeePerGas := tx_data.maxPriorityFeePerGas.getD 1500000000 }

/-- The dict returned by `AgentWallet.sign_transaction`. -/
structure SignedTx where
  signed : Bool
  chain : String
  address : Option String
  tx_data : FormattedTx
  network : String
  chainId : ℚ
  status : String
  deriving DecidableEq

/-- `AgentWallet.sign_transaction`: format the transaction and wrap it in
the fixed signing stub record. -/
def AgentWallet.sign_transaction (w : AgentWallet) (tx_data : PyDict) : SignedTx :=
  { signed := true
  , chain := w.chain
  , address := w.address
  , tx_data := w.format_transaction tx_data
  , network := "ethereum"
  , chainId := 1
  , status := "signed" }

/-- `schemas.py` `EconomicAgent`. -/
structure EconomicAgent where
  id : String
  rewards : List ℚ := []
  total_reward : ℚ := 0
  wallet : Option AgentWallet := none
  holdings : Option Portfolio := none
  deriving DecidableEq

/-- Python truthiness of an optional symbol dict: `None` and the empty
dict are falsy. -/
def symFalsy : Option SymDict → Bool
  | none => true
  | some l => l.isEmpty

/-- `EconomicAgent.__init__`: assign the fresh uuid; when
`generate_wallet` is set, create an `AgentWallet`, run
`ensure_valid_wallet` on it, and create a `Portfolio` whose
`token_balances` are `initial_holdings or` the empty dict.  No
transaction is recorded for the seeding. -/
def EconomicAgent.make (freshId : String) (kg : KeyGen) (generate_wallet : Bool)
    (initial_holdings : Option SymDict) : EconomicAgent :=
  if generate_wallet then
    { id := freshId
    , wallet := some (AgentWallet.ensure_valid_wallet { chain := "ethereum" } kg)
    , holdings := some { token_balances := initial_holdings.getD [] } }
  else { id := freshId }

/-- `EconomicAgent.add_transaction`: delegate to the holdings when they
exist, otherwise silently do nothing. -/
def EconomicAgent.add_transaction (a : EconomicAgent) (tx : PyDict) : EconomicAgent :=
  match a.holdings with
  | none => a
  | some p => { a with holdings := some (p.record_transaction tx) }

/-- `EconomicAgent.get_token_balance`: delegate, `0.0` without holdings. -/
def EconomicAgent.get_token_balance (a : EconomicAgent) (symbol : String) : ℚ :=
  match a.holdings with
  | none => 0
  | some p => p.get_token_balance symbol

/-- `EconomicAgent.get_portfolio_value`: delegate, `0.0` without holdings. -/
def EconomicAgent.get_portfolio_value (a : EconomicAgent) (price_feeds : Option SymDict)
    (default_price : ℚ) : ℚ :=
  match a.holdings with
  | none => 0
  | some p => p.get_total_value price_feeds default_price

/-- `EconomicAgent.sign_transaction`: the empty dict (falsy, modelled as
`none`) without a wallet, otherwise the wallet's signing stub. -/
def EconomicAgent.sign_transaction (a : EconomicAgent) (tx_data : PyDict) : Option SignedTx :=
  match a.wallet with
  | none => none
  | some w => some (w.sign_transaction tx_data)

/-- The response dict of the dispatcher.  One optional field per key any
operation can emit; `none` models the key being absent.  The fields
`wallet`, `holdings`, `symbol` and `address` can be present with a null
value, hence the nested options. -/
structure Envelope where
  status : String
  message : Option String := none
  transaction : Option PyDict := none
  agent_id : Option String := none
  wallet : Option (Option AgentWallet) := none
  holdings : Option (Option Portfolio) := none
  symbol : Option (Option String) := none
  balance : Option ℚ := none
  value : Option ℚ := none
  signed : Option Bool := none
  chain : Option String := none
  address : Option (Option String) := none
  tx_data : Option FormattedTx := none
  network : Option String := none
  chainId : Option ℚ := none
  deriving DecidableEq

/-- The module-level `func_input_data` after pydantic validation: `null`,
some non-mapping payload (a string or a list; only truthy ones are
distinguished, a falsy one is normalized to the empty dict exactly like
`null`), or a dict. -/
inductive FuncInputData where
  | null
  | nonDict
  | dict (d : PyDict)
  deriving DecidableEq

/-- `run.py` `EconomicAgentModule`: the per-consumer state.  The Python
`__init__` always assigns `self.agent`; the field is still optional here
so that the source's `if not self.agent` guards can be expressed (an
`EconomicAgent` instance is always truthy). -/
structure EconomicAgentModule where
  consumer_id : String
  agent : Option EconomicAgent
  deriving DecidableEq

/-- The uuid and keypair consumed when the dispatcher constructs a new
module (external entropy). -/
structure Fresh where
  agentId : String
  keys : KeyGen
  deriving DecidableEq

/-- `EconomicAgentModule.__init__`: unconditionally constructs
`EconomicAgent(generate_wallet=True)`. -/
def EconomicAgentModule.make (consumer_id : String) (f : Fresh) : EconomicAgentModule :=
  { consumer_id := consumer_id
  , agent := some (EconomicAgent.make f.agentId f.keys true none) }

/-- The error envelope of the `if not self.agent` guards. -/
def notInitializedEnv : Envelope :=
  { status := "error", message := some "Agent not initialized. Call create first." }

/-- The error envelope of the first validation step of `add_transaction`. -/
def invalidTxDataEnv : Envelope :=
  { status := "error"
  , message := some "Invalid transaction data - must include type, symbol and amount" }

/-- The transaction types accepted by `add_transaction`. -/
def txAllowedTypes : List String := ["withdraw", "reward", "deposit", "trade"]

/-- The f-string of the insufficient-balance error (numbers rendered by
Lean's `toString`; CPython renders floats with a trailing `.0`). -/
def insufficientMsg (symbol : String) (haveBal required : ℚ) : String :=
  "Insufficient " ++ symbol ++ " balance. Have " ++ toString haveBal
    ++ ", need " ++ toString required

/-- The seeding statement of `EconomicAgentModule.create`: when
`initial_holdings` is truthy,
`self.agent.holdings.token_balances.update(initial_holdings)` (an
`AttributeError` when the agent or its holdings are missing).  The
balances are written directly; nothing is appended to the transaction
history. -/
def EconomicAgentModule.createSeed (m : EconomicAgentModule) (initial_holdings : Option SymDict) :
    Except String EconomicAgentModule :=
  if symFalsy initial_holdings then Except.ok m
  else
    match m.agent with
    | none => Except.error "NoneType object has no attribute holdings"
    | some a =>
      match a.holdings with
      | none => Except.error "NoneType object has no attribute token_balances"
      | some p =>
        Except.ok (EconomicAgentModule.mk m.consumer_id
          (some (EconomicAgent.mk a.id a.rewards a.total_reward a.wallet
            (some (Portfolio.mk (dictUpdate p.token_balances (initial_holdings.getD []))
              p.transaction_history)))))

/-- The snapshot envelope of `create`, after the seeding step. -/
def EconomicAgentModule.create (m : EconomicAgentModule) (initial_holdings : Option SymDict) :
    Except String (Envelope × EconomicAgentModule) :=
  match m.createSeed initial_holdings with
  | Except.error e => Except.error e
  | Except.ok m1 =>
    match m1.agent with
    | none => Except.error "NoneType object has no attribute id"
    | some a =>
      Except.ok
        ({ status := "success"
         , agent_id := some a.id
         , wallet := some a.wallet
         , holdings := some a.holdings }, m1)

/-- `EconomicAgentModule.add_transaction`: the validation chain of
`run.py` lines 31-61.  The first check `not tx or not isinstance(tx,
dict) or not all(k in tx for k in [...])` rejects `null`, non-mapping
payloads, and dicts missing any of the three keys (an empty dict is
falsy, but it also misses the keys, so both readings give the same
result). -/
def EconomicAgentModule.add_transaction (m : EconomicAgentModule) (tx : FuncInputData) :
    Envelope × EconomicAgentModule :=
  match m.agent with
  | none => (notInitializedEnv, m)
  | some agent =>
    match tx with
    | FuncInputData.dict d =>
      if d.type = none ∨ d.symbol = none ∨ d.amount = none then
        (invalidTxDataEnv, m)
      else if d.type.getD "" ∉ txAllowedTypes then
        ({ status := "error"
         , message := some "Invalid transaction type - only withdraw and deposit allowed"
         , transaction := some d }, m)
      else
        if (d.type.getD "" = "withdraw" ∨ d.type.getD "" = "trade") ∧ d.amount.getD 0 < 0 then
          if agent.get_token_balance (d.symbol.getD "") < |d.amount.getD 0| then
            ({ status := "error"
             , message := some (insufficientMsg (d.symbol.getD "")
                 (agent.get_token_balance (d.symbol.getD "")) |d.amount.getD 0|)
             , transaction := some d }, m)
          else
            ({ status := "success", transaction := some d }
            , { m with agent := some (agent.add_transaction d) })
        else
          ({ status := "success", transaction := some d }
          , { m with agent := some (agent.add_transaction d) })
    | _ => (invalidTxDataEnv, m)

/-- `EconomicAgentModule.get_token_balance`.  The dispatcher passes
`func_input.get("symbol")`, which can be `None`; `None` is not a key of
the string-keyed balances, so its balance reads as `0.0`. -/
def EconomicAgentModule.get_token_balance (m : EconomicAgentModule) (symbol : Option String) :
    Envelope × EconomicAgentModule :=
  match m.agent with
  | none => (notInitializedEnv, m)
  | some a =>
    let bal : ℚ :=
      match symbol with
      | none => 0
      | some s => a.get_token_balance s
    ({ status := "success", symbol := some symbol, balance := some bal }, m)

/-- `EconomicAgentModule.get_portfolio_value`. -/
def EconomicAgentModule.get_portfolio_value (m : EconomicAgentModule)
    (price_feeds : Option SymDict) (default_price : ℚ) : Envelope × EconomicAgentModule :=
  match m.agent with
  | none => (notInitializedEnv, m)
  | some a =>
    ({ status := "success", value := some (a.get_portfolio_value price_feeds default_price) }, m)

/-- `EconomicAgentModule.sign_transaction`.  On success the source builds
`dict(status="success", **signed_tx)`; the spread carries
`status="signed"`, which overwrites the literal `"success"`. -/
def EconomicAgentModule.sign_transaction (m : EconomicAgentModule) (tx_data : PyDict) :
    Envelope × EconomicAgentModule :=
  match m.agent with
  | none => (notInitializedEnv, m)
  | some a =>
    match a.sign_transaction tx_data with
    | none => ({ status := "error", message := some "Failed to sign transaction" }, m)
    | some st =>
      ({ status := st.status
       , signed := some st.signed
       , chain := some st.chain
       , address := some st.address
       , tx_data := some st.tx_data
       , network := some st.network
       , chainId := some st.chainId }, m)

/-- A request after pydantic validation of `AgentRunInput` and
`InputSchema`. -/
structure AgentRunInput where
  consumer_id : String
  func_name : String
  func_input_data : FuncInputData := FuncInputData.null
  deriving DecidableEq

/-- The `run._agents` registry: consumer key to module, insertion order. -/
abbrev Registry := List (String × EconomicAgentModule)

/-- Registry lookup. -/
def regFind : Registry → String → Option EconomicAgentModule
  | [], _ => none
  | (k, m) :: rest, key => if k = key then some m else regFind rest key

/-- Registry assignment (replace in place or append). -/
def regSet : Registry → String → EconomicAgentModule → Registry
  | [], key, m => [(key, m)]
  | (k, m0) :: rest, key, m => if k = key then (key, m) :: rest else (k, m0) :: regSet rest key m

/-- `func_input = module_run.inputs.func_input_data or {}`: a falsy
payload becomes the empty dict. -/
def normalizeInput : FuncInputData → FuncInputData
  | FuncInputData.null => FuncInputData.dict ({} : PyDict)
  | d => d

/-- The method names `getattr` resolves on `EconomicAgentModule`. -/
def methodNames : List String :=
  ["create", "add_transaction", "get_token_balance", "get_portfolio_value", "sign_transaction"]

/-- The non-callable instance attributes assigned by
`EconomicAgentModule.__init__`; `getattr` resolves these too, and calling
the resulting object raises a `TypeError`. -/
def moduleAttrNames : List String := ["deployment", "consumer_id", "agent"]

/-- The `AttributeError` message of `getattr` on an unknown name (CPython
quotes the names; the quote characters are omitted here). -/
def noAttrMsg (name : String) : String :=
  "EconomicAgentModule object has no attribute " ++ name

/-- The envelope of the `if not method` branch of `run` (line 117-118),
returned directly when `getattr` produced a falsy attribute. -/
def invalidFuncNameMsg (name : String) : String :=
  "Invalid function name: " ++ name

/-- Whether a name begins with an underscore: such names resolve through
Python attribute inheritance and are outside the embedding. -/
def underscoreInitial (s : String) : Bool :=
  match s.data with
  | [] => false
  | c :: _ => c = '_'

/-- The outcome of `getattr`-plus-dispatch on one request: a returned
envelope with the (in-place mutated) module, an exception escaping to the
top-level handler, or a name whose resolution the embedding does not
model. -/
inductive DispatchResult where
  | ok (env : Envelope) (m2 : EconomicAgentModule)
  | raised (msg : String)
  | unmodeled
  deriving DecidableEq

/-- Placeholder envelope `run` yields for requests whose operation name
begins with an underscore; no theorem refers to it. -/
def unmodeledEnv : Envelope := { status := "unmodeled" }

/-- The `TypeError` message raised when the object `getattr` returned for
one of the data attributes is called (`self.agent` is an `EconomicAgent`
pydantic model, `self.deployment` an `AgentDeployment`, and
`self.consumer_id` a string; none of them is callable). -/
def notCallableMsg (name : String) : String :=
  if name = "agent" then "EconomicAgent object is not callable"
  else if name = "deployment" then "AgentDeployment object is not callable"
  else "str object is not callable"

/-- The `AttributeError` raised by `func_input.get(...)` when the payload
is not a mapping. -/
def attrGetMsg : String := "str object has no attribute get"

/-- The `getattr`-plus-`match` dispatch of `run` (lines 116-135), on an
already-resolved module.  `getattr` resolves the five methods and the
three instance data attributes assigned by `__init__`.  A bound method is
always truthy; `self.agent` and `self.deployment` are pydantic-model
instances (no `__bool__` or `__len__`, hence truthy, with `deployment`
guaranteed an `AgentDeployment` instance by the pydantic-validated
`AgentRunInput`); `self.consumer_id` is the stored consumer key, falsy
exactly when it is the empty string, in which case the `if not method`
branch (line 117-118) returns the "Invalid function name" envelope
directly.  Calling a non-callable attribute raises a `TypeError`.  Any
other name not beginning with an underscore raises an `AttributeError`
naming it (the class body and `object` supply no further non-underscore
attributes).  Names beginning with an underscore resolve through
environment-specific attribute inheritance and are deliberately left
`unmodeled`. -/
def dispatchOp (m : EconomicAgentModule) (func_name : String) (func_input : FuncInputData) :
    DispatchResult :=
  if func_name = "create" then
    match func_input with
    | FuncInputData.dict d =>
      match m.create d.initial_holdings with
      | Except.ok (env, m2) => DispatchResult.ok env m2
      | Except.error e => DispatchResult.raised e
    | _ => DispatchResult.raised attrGetMsg
  else if func_name = "add_transaction" then
    DispatchResult.ok (m.add_transaction func_input).1 (m.add_transaction func_input).2
  else if func_name = "get_token_balance" then
    match func_input with
    | FuncInputData.dict d =>
      DispatchResult.ok (m.get_token_balance d.symbol).1 (m.get_token_balance d.symbol).2
    | _ => DispatchResult.raised attrGetMsg
  else if func_name = "get_portfolio_value" then
    match func_input with
    | FuncInputData.dict d =>
      DispatchResult.ok (m.get_portfolio_value d.price_feeds (d.default_price.getD 0)).1
        (m.get_portfolio_value d.price_feeds (d.default_price.getD 0)).2
    | _ => DispatchResult.raised attrGetMsg
  else if func_name = "sign_transaction" then
    match func_input with
    | FuncInputData.dict d =>
      DispatchResult.ok (m.sign_transaction d).1 (m.sign_transaction d).2
    | _ => DispatchResult.raised attrGetMsg
  else if func_name = "agent" then
    DispatchResult.raised (notCallableMsg "agent")
  else if func_name = "deployment" then
    DispatchResult.raised (notCallableMsg "deployment")
  else if func_name = "consumer_id" then
    if m.consumer_id = "" then
      DispatchResult.ok { status := "error"
                        , message := some (invalidFuncNameMsg "consumer_id") } m
    else
      DispatchResult.raised (notCallableMsg "consumer_id")
  else if underscoreInitial func_name then
    DispatchResult.unmodeled
  else
    DispatchResult.raised (noAttrMsg func_name)

/-- The get-or-create step of `run` (lines 105-114): reuse the stored
module for the consumer key, otherwise construct one (consuming the
entropy) and store it. -/
def getOrCreate (reg : Registry) (f : Fresh) (key : String) :
    EconomicAgentModule × Registry :=
  match regFind reg key with
  | some m => (m, reg)
  | none =>
    let m := EconomicAgentModule.make key f
    (m, regSet reg key m)

/-- `run`: resolve the module, dispatch, write the (in-place mutated)
module back; the top-level `except` converts any escaped exception into
an error envelope, keeping whatever registry mutation already happened. -/
def run (reg : Registry) (f : Fresh) (inp : AgentRunInput) : Envelope × Registry :=
  match dispatchOp (getOrCreate reg f inp.consumer_id).1 inp.func_name
      (normalizeInput inp.func_input_data) with
  | DispatchResult.ok env m2 =>
    (env, regSet (getOrCreate reg f inp.consumer_id).2 inp.consumer_id m2)
  | DispatchResult.raised msg =>
    ({ status := "error", message := some msg }, (getOrCreate reg f inp.consumer_id).2)
  | DispatchResult.unmodeled => (unmodeledEnv, (getOrCreate reg f inp.consumer_id).2)

/-- The per-symbol sum of recorded amounts over a transaction history
(an entry lacking the amount key contributes nothing, mirroring
`record_transaction`, which only adjusts balances when both keys are
present). -/
def historySum (h : List PyDict) (symbol : String) : ℚ :=
  (h.map (fun tx => if tx.symbol = some symbol then tx.amount.getD 0 else 0)).sum

/-- The balances-are-derived-from-history invariant of the spec. -/
def balanceInvariant (p : Portfolio) : Prop :=
  ∀ symbol : String, p.get_token_balance symbol = historySum p.transaction_history symbol

/-- The spec's price of a symbol: the price-feed entry if the symbol is
present, the default price otherwise. -/
def priceOf (price_feeds : SymDict) (symbol : String) (default_price : ℚ) : ℚ :=
  match price_feeds.find? (fun kv => kv.1 == symbol) with
  | some kv => kv.2
  | none => default_price

/-- Spec-side formulation of the portfolio value, written from the spec's
words: sum over all symbols in `token_balances` of
`balance * (price_feeds[symbol] if present else default_price)`, an
absent price map read as empty. -/
def totalValueSpec (p : Portfolio) (price_feeds : Option SymDict) (default_price : ℚ) : ℚ :=
  (p.token_balances.map
    (fun sb => sb.2 * priceOf (price_feeds.getD []) sb.1 default_price)).sum

/-- A module whose agent, holdings and wallet all exist — the shape of
every module the dispatcher constructs. -/
def ModuleWF (m : EconomicAgentModule) : Prop :=
  ∃ ag p w, m.agent = some ag ∧ ag.holdings = some p ∧ ag.wallet = some w

/-- Every module stored in the registry is well-formed. -/
def RegWF (reg : Registry) : Prop := ∀ k m, (k, m) ∈ reg → ModuleWF m

/-- Character-list test: the pattern is an initial segment of the text. -/
def startsWithChars : List Char → List Char → Bool
  | [], _ => true
  | _ :: _, [] => false
  | c :: cs, d :: ds => c = d && startsWithChars cs ds

/-- Character-list substring test. -/
def containsChars (sub : List Char) : List Char → Bool
  | [] => sub.isEmpty
  | c :: cs => startsWithChars sub (c :: cs) || containsChars sub cs

/-- A message names an operation when the operation name occurs in it. -/
def msgNames (msg name : String) : Prop :=
  containsChars name.data msg.data = true

theorem dictGet_dictSet (d : SymDict) (k : String) (v : ℚ) (q : String) (dflt : ℚ) :
    dictGet (dictSet d k v) q dflt = if k = q then v else dictGet d q dflt := by
  induction d with
  | nil => simp [dictGet, dictSet]
  | cons hd tl ih =>
    obtain ⟨k2, v2⟩ := hd
    by_cases hk : k2 = k
    · subst hk
      by_cases hq : k2 = q <;> simp [dictGet, dictSet, hq]
    · by_cases hq : k2 = q
      · subst hq
        have hkq : ¬ k = k2 := fun h => hk h.symm
        simp [dictGet, dictSet, hk, hkq]
      · simp [dictGet, dictSet, hk, hq, ih]

theorem historySum_append (h : List PyDict) (tx : PyDict) (symbol : String) :
    historySum (h ++ [tx]) symbol
      = historySum h symbol
        + (if tx.symbol = some symbol then tx.amount.getD 0 else 0) := by
  simp [historySum]

theorem record_preserves_invariant (p : Portfolio) (tx : PyDict)
    (h : balanceInvariant p) : balanceInvariant (p.record_transaction tx) := by
  intro s
  have hs' := h s
  unfold Portfolio.get_token_balance at hs'
  unfold Portfolio.record_transaction
  split
  case _ s0 a heq1 heq2 =>
    have hs0 := h s0
    unfold Portfolio.get_token_balance at hs0
    unfold Portfolio.get_token_balance Portfolio.adjust_token_balance
    simp only [dictGet_dictSet, historySum_append, heq1, heq2]
    by_cases hseq : s0 = s
    · subst hseq
      simp [hs0]
    · have hne2 : ¬ (some s0 = some s) := by simpa using hseq
      simp [hseq, hne2, hs']
  case _ hne =>
    unfold Portfolio.get_token_balance
    simp only [historySum_append]
    rcases heq1 : tx.symbol with _ | s0
    · simp [heq1, hs']
    · rcases heq2 : tx.amount with _ | a
      · simp [heq1, heq2, hs']
      · exact (hne s0 a heq1 heq2).elim

/-- Shared concrete entropy fixture. -/
def freshA : Fresh := { agentId := "agent-1", keys := { privateKey := "0xkey1", address := "0xaddr1" } }

/-- A second concrete entropy fixture. -/
def freshB : Fresh := { agentId := "agent-2", keys := { privateKey := "0xkey2", address := "0xaddr2" } }

/-- A concrete dispatcher-constructed module. -/
def modA : EconomicAgentModule := EconomicAgentModule.make "alice" freshA

/-- The agent inside `modA`. -/
def agA : EconomicAgent := EconomicAgent.make "agent-1" freshA.keys true none

/-- C1: starting from any portfolio whose balances equal the per-symbol
sums of its history, any sequence of `record_transaction` calls keeps
every symbol's balance equal to the sum of the recorded amounts for that
symbol (symbols never seen read as balance 0, matching the empty sum);
each append updates the balance together with the history. -/
theorem C1_balances_equal_history_sums (init : Portfolio) (txs : List PyDict)
    (hinit : balanceInvariant init) :
    balanceInvariant (txs.foldl Portfolio.record_transaction init) := by
  induction txs generalizing init with
  | nil => exact hinit
  | cons tx rest ih => exact ih _ (record_preserves_invariant init tx hinit)

/-- Witness for C1 at the empty portfolio and a concrete two-transaction
history. -/
theorem C1_balances_equal_history_sums_witness :
    balanceInvariant ({} : Portfolio)
    ∧ balanceInvariant
        ([({ type := some "deposit", symbol := some "ETH", amount := some 5 } : PyDict),
          ({ type := some "withdraw", symbol := some "ETH", amount := some (-2) } : PyDict)].foldl
          Portfolio.record_transaction {}) :=
  ⟨fun _ => rfl, C1_balances_equal_history_sums {} _ (fun _ => rfl)⟩

theorem dictGet_eq_priceOf (d : SymDict) (k : String) (dflt : ℚ) :
    dictGet d k dflt = priceOf d k dflt := by
  induction d with
  | nil => rfl
  | cons hd tl ih =>
    obtain ⟨k2, v2⟩ := hd
    by_cases h : k2 = k
    · simp [dictGet, priceOf, List.find?, h]
    · simp only [dictGet, priceOf, List.find?] at *
      rw [show ((k2, v2).1 == k) = false from beq_eq_false_iff_ne.mpr h]
      simp [h, ih]

/-- C5: `get_total_value` computes the spec's sum (balance times the
price-feed entry when present, the default price otherwise), a `None`
price map behaves as the empty one, and on the holdings
ETH 1, NAPTHA 100, USDC 1000 with feeds ETH 2000, NAPTHA 10 and default
price 0 the value is 3000.  The embedding is a pure function of its
arguments, so the call is deterministic and mutates nothing. -/
theorem C5_get_total_value_spec :
    (∀ (p : Portfolio) (pf : Option SymDict) (dp : ℚ),
        Portfolio.get_total_value p pf dp = totalValueSpec p pf dp)
    ∧ (∀ (p : Portfolio) (dp : ℚ),
        Portfolio.get_total_value p none dp = Portfolio.get_total_value p (some []) dp)
    ∧ Portfolio.get_total_value
        { token_balances := [("ETH", 1), ("NAPTHA", 100), ("USDC", 1000)] }
        (some [("ETH", 2000), ("NAPTHA", 10)]) 0 = 3000 := by
  refine ⟨?_, ?_, ?_⟩
  · intro p pf dp
    unfold Portfolio.get_total_value totalValueSpec
    cases pf <;> simp [dictGet_eq_priceOf]
  · intro p dp
    rfl
  · simp [Portfolio.get_total_value, dictGet]
    norm_num

/-- The tx_data of the C6 counterexample: the input carries explicit
`from` and `chainId` keys. -/
def c6TxData : PyDict := { chainId := some 5, fromField := some "0xother" }

/-- A concrete generated wallet for the C6 counterexample. -/
def c6Wallet : AgentWallet :=
  { chain := "ethereum", address := some "0xwallet", private_key := some "0xkey" }

/-- C6 counterexample: the formatted body does not take `chainId` or
`from` from tx_data even when they are present — `chainId` is the
hard-coded 1 and `from` is the wallet address. -/
theorem C6_counterexample :
    c6TxData.chainId = some 5
    ∧ (c6Wallet.sign_transaction c6TxData).tx_data.chainId = 1
    ∧ (c6Wallet.sign_transaction c6TxData).tx_data.chainId ≠ 5
    ∧ c6TxData.fromField = some "0xother"
    ∧ (c6Wallet.sign_transaction c6TxData).tx_data.fromField = some "0xwallet"
    ∧ (c6Wallet.sign_transaction c6TxData).tx_data.fromField ≠ some "0xother" := by
  refine ⟨rfl, rfl, ?_, rfl, rfl, ?_⟩ <;> decide

/-- C6 amended: `sign_transaction` is a pure function returning the
signed flag, the chain, the address, and a formatted body whose fields
`to/value/data/nonce/gas/maxFeePerGas/maxPriorityFeePerGas` take the
values from tx_data when present and otherwise the defaults value=0,
data="0x", nonce=0, gas=21000, maxFeePerGas=2e10,
maxPriorityFeePerGas=1.5e9; `from` is always the wallet address and
`chainId` is always 1, regardless of any such keys in tx_data. -/
theorem C6_sign_transaction_fields (w : AgentWallet) (tx_data : PyDict) :
    (w.sign_transaction tx_data).signed = true
    ∧ (w.sign_transaction tx_data).chain = w.chain
    ∧ (w.sign_transaction tx_data).address = w.address
    ∧ (w.sign_transaction tx_data).status = "signed"
    ∧ (w.sign_transaction tx_data).tx_data =
        { fromField := w.address
        , toAddr := tx_data.toAddr
        , value := tx_data.value.getD 0
        , data := tx_data.data.getD "0x"
        , chainId := 1
        , nonce := tx_data.nonce.getD 0
        , gas := tx_data.gas.getD 21000
        , maxFeePerGas := tx_data.maxFeePerGas.getD 20000000000
        , maxPriorityFeePerGas := tx_data.maxPriorityFeePerGas.getD 1500000000 } :=
  ⟨rfl, rfl, rfl, rfl, rfl⟩

/-- The transaction of the C2 failing input. -/
def c2Tx : PyDict := { type := some "deposit", symbol := some "ETH", amount := some 5 }

/-- The C2 failing input: an `add_transaction` request for a caller key
that never issued `create`. -/
def c2Request : AgentRunInput :=
  { consumer_id := "alice", func_name := "add_transaction"
  , func_input_data := FuncInputData.dict c2Tx }

/-- C2 (code bug): dispatching `add_transaction` from the empty registry
— no prior `create` for the key — does not return the NotInitialized
error the spec requires; `EconomicAgentModule.__init__` auto-creates the
agent, so the operation succeeds and the transaction is recorded.  The
`if not self.agent` guards in the source are unreachable. -/
theorem C2_no_create_still_succeeds :
    (run [] freshA c2Request).1.status = "success"
    ∧ (run [] freshA c2Request).1.message = none
    ∧ (run [] freshA c2Request).1 ≠ notInitializedEnv
    ∧ ((regFind (run [] freshA c2Request).2 "alice").bind
        (fun m => m.agent.bind (fun a => a.holdings.map Portfolio.transaction_history)))
        = some [c2Tx]
    ∧ (∀ key f, (EconomicAgentModule.make key f).agent ≠ none) := by
  refine ⟨rfl, rfl, by decide, rfl, ?_⟩
  intro key f h
  simp [EconomicAgentModule.make] at h

/-- C3: every validation failure of the dispatcher's `add_transaction` —
a null or non-mapping payload, a missing type/symbol/amount key, a type
outside the allowed four, or a negative-amount withdraw/trade whose
symbol balance is below the absolute amount — yields a status-"error"
envelope carrying a message, and leaves the module (balances and
history) unchanged, so `record_transaction` is never reached. -/
theorem C3_validation_failures_reject (m : EconomicAgentModule) (ag : EconomicAgent)
    (hag : m.agent = some ag) (tx : FuncInputData)
    (hfail : tx = FuncInputData.null ∨ tx = FuncInputData.nonDict
      ∨ ∃ d, tx = FuncInputData.dict d
          ∧ (d.type = none ∨ d.symbol = none ∨ d.amount = none
             ∨ d.type.getD "" ∉ txAllowedTypes
             ∨ ((d.type.getD "" = "withdraw" ∨ d.type.getD "" = "trade")
                ∧ d.amount.getD 0 < 0
                ∧ ag.get_token_balance (d.symbol.getD "") < |d.amount.getD 0|))) :
    (m.add_transaction tx).1.status = "error"
    ∧ (m.add_transaction tx).1.message.isSome = true
    ∧ (m.add_transaction tx).2 = m := by
  unfold EconomicAgentModule.add_transaction
  rw [hag]
  rcases hfail with rfl | rfl | ⟨d, rfl, hcond⟩
  · exact ⟨rfl, rfl, rfl⟩
  · exact ⟨rfl, rfl, rfl⟩
  · dsimp only
    by_cases h1 : d.type = none ∨ d.symbol = none ∨ d.amount = none
    · rw [if_pos h1]
      exact ⟨rfl, rfl, rfl⟩
    · rw [if_neg h1]
      by_cases h2 : d.type.getD "" ∉ txAllowedTypes
      · rw [if_pos h2]
        exact ⟨rfl, rfl, rfl⟩
      · rw [if_neg h2]
        rcases hcond with h | h | h | h | ⟨hty, hamt, hbal⟩
        · exact absurd (Or.inl h) h1
        · exact absurd (Or.inr (Or.inl h)) h1
        · exact absurd (Or.inr (Or.inr h)) h1
        · exact absurd h h2
        · rw [if_pos ⟨hty, hamt⟩, if_pos hbal]
          exact ⟨rfl, rfl, rfl⟩

/-- The transaction of the C3 witness: a withdrawal overdrawing an empty
balance. -/
def c3Tx : PyDict := { type := some "withdraw", symbol := some "X", amount := some (-5) }

/-- Witness for C3: the overdraw attempt on a fresh module errors and
leaves the module unchanged. -/
theorem C3_validation_failures_reject_witness :
    (modA.add_transaction (FuncInputData.dict c3Tx)).1.status = "error"
    ∧ (modA.add_transaction (FuncInputData.dict c3Tx)).1.message.isSome = true
    ∧ (modA.add_transaction (FuncInputData.dict c3Tx)).2 = modA :=
  C3_validation_failures_reject modA agA rfl (FuncInputData.dict c3Tx)
    (Or.inr (Or.inr ⟨c3Tx, rfl,
      Or.inr (Or.inr (Or.inr (Or.inr ⟨Or.inl rfl, by decide, by decide⟩)))⟩))

/-- C4: a withdraw or trade carrying all three keys and a non-negative
amount passes validation for every module state — the balance check is
skipped entirely — and the dispatcher echoes the transaction in a
success envelope, records it, and the symbol's balance increases by the
amount. -/
theorem C4_positive_withdraw_trade_bypasses_check (m : EconomicAgentModule)
    (ag : EconomicAgent) (p : Portfolio) (hag : m.agent = some ag)
    (hold : ag.holdings = some p) (d : PyDict) (s : String) (a : ℚ)
    (hty : d.type = some "withdraw" ∨ d.type = some "trade")
    (hs : d.symbol = some s) (ha : d.amount = some a) (hpos : 0 ≤ a) :
    (m.add_transaction (FuncInputData.dict d)).1
      = { status := "success", transaction := some d }
    ∧ (m.add_transaction (FuncInputData.dict d)).2
      = { m with agent := some (ag.add_transaction d) }
    ∧ (ag.add_transaction d).get_token_balance s = ag.get_token_balance s + a := by
  unfold EconomicAgentModule.add_transaction
  rw [hag]
  dsimp only
  have h1 : ¬ (d.type = none ∨ d.symbol = none ∨ d.amount = none) := by
    rcases hty with h | h <;> simp [h, hs, ha]
  rw [if_neg h1]
  have h2 : ¬ d.type.getD "" ∉ txAllowedTypes := by
    rcases hty with h | h <;> simp [h, txAllowedTypes]
  rw [if_neg h2]
  have h3 : ¬ ((d.type.getD "" = "withdraw" ∨ d.type.getD "" = "trade")
      ∧ d.amount.getD 0 < 0) := by
    rintro ⟨-, hneg⟩
    rw [ha] at hneg
    exact absurd (lt_of_le_of_lt hpos hneg) (lt_irrefl 0)
  rw [if_neg h3]
  refine ⟨rfl, rfl, ?_⟩
  unfold EconomicAgent.add_transaction EconomicAgent.get_token_balance
  rw [hold]
  unfold Portfolio.record_transaction
  rw [hs, ha]
  unfold Portfolio.get_token_balance Portfolio.adjust_token_balance
  simp [dictGet_dictSet]

/-- The transaction of the C4 witness: a trade with a positive amount on
an empty balance. -/
def c4Tx : PyDict := { type := some "trade", symbol := some "X", amount := some 7 }

/-- Witness for C4: the positive-amount trade succeeds on a fresh module
whose balance for the symbol is zero. -/
theorem C4_positive_withdraw_trade_bypasses_check_witness :
    (modA.add_transaction (FuncInputData.dict c4Tx)).1
      = { status := "success", transaction := some c4Tx }
    ∧ (modA.add_transaction (FuncInputData.dict c4Tx)).2
      = { modA with agent := some (agA.add_transaction c4Tx) }
    ∧ (agA.add_transaction c4Tx).get_token_balance "X" = agA.get_token_balance "X" + 7 :=
  C4_positive_withdraw_trade_bypasses_check modA agA { token_balances := [] } rfl rfl
    c4Tx "X" 7 (Or.inr rfl) rfl rfl (by decide)

theorem startsWithChars_self_append (sub b : List Char) :
    startsWithChars sub (sub ++ b) = true := by
  induction sub with
  | nil => rfl
  | cons c cs ih => simp [startsWithChars, ih]

theorem containsChars_self_append (sub b : List Char) :
    containsChars sub (sub ++ b) = true := by
  cases sub with
  | nil =>
    cases b with
    | nil => rfl
    | cons x xs => simp [containsChars, startsWithChars]
  | cons c cs =>
    have h : containsChars (c :: cs) ((c :: cs) ++ b)
        = (startsWithChars (c :: cs) ((c :: cs) ++ b)
            || containsChars (c :: cs) (cs ++ b)) := rfl
    rw [h, startsWithChars_self_append, Bool.true_or]

theorem containsChars_append (a sub b : List Char) :
    containsChars sub (a ++ sub ++ b) = true := by
  induction a with
  | nil => simpa using containsChars_self_append sub b
  | cons x xs ih =>
    have h : containsChars sub (((x :: xs) ++ sub) ++ b)
        = (startsWithChars sub (((x :: xs) ++ sub) ++ b)
            || containsChars sub ((xs ++ sub) ++ b)) := rfl
    rw [h, ih, Bool.or_true]

theorem msgNames_of_append (pre name post : String) :
    msgNames (pre ++ name ++ post) name := by
  unfold msgNames
  rw [String.data_append, String.data_append]
  exact containsChars_append pre.data name.data post.data

theorem dispatchOp_unknown (m : EconomicAgentModule) (name : String) (d : FuncInputData)
    (h1 : name ∉ methodNames) (h2 : name ∉ moduleAttrNames)
    (h3 : underscoreInitial name = false) :
    dispatchOp m name d = DispatchResult.raised (noAttrMsg name) := by
  simp only [methodNames, moduleAttrNames, List.mem_cons, List.not_mem_nil, or_false,
    not_or] at h1 h2
  obtain ⟨n1, n2, n3, n4, n5⟩ := h1
  obtain ⟨m1, m2, m3⟩ := h2
  simp [dispatchOp, n1, n2, n3, n4, n5, m2, m1, m3, h3]

theorem dispatchOp_attr (m : EconomicAgentModule) (name : String) (d : FuncInputData)
    (h : name = "agent" ∨ name = "deployment") :
    dispatchOp m name d = DispatchResult.raised (notCallableMsg name) := by
  rcases h with rfl | rfl <;> rfl

theorem dispatchOp_consumer_id (m : EconomicAgentModule) (d : FuncInputData) :
    dispatchOp m "consumer_id" d
      = if m.consumer_id = "" then
          DispatchResult.ok { status := "error"
                            , message := some (invalidFuncNameMsg "consumer_id") } m
        else DispatchResult.raised (notCallableMsg "consumer_id") := rfl

theorem run_error_of_dispatch_raised (reg : Registry) (f : Fresh) (inp : AgentRunInput)
    (msg : String)
    (h : dispatchOp (getOrCreate reg f inp.consumer_id).1 inp.func_name
        (normalizeInput inp.func_input_data) = DispatchResult.raised msg) :
    run reg f inp = ({ status := "error", message := some msg },
      (getOrCreate reg f inp.consumer_id).2) := by
  unfold run
  rw [h]

theorem run_of_dispatch_ok (reg : Registry) (f : Fresh) (inp : AgentRunInput)
    (env : Envelope) (m2 : EconomicAgentModule)
    (h : dispatchOp (getOrCreate reg f inp.consumer_id).1 inp.func_name
        (normalizeInput inp.func_input_data) = DispatchResult.ok env m2) :
    run reg f inp = (env, regSet (getOrCreate reg f inp.consumer_id).2 inp.consumer_id m2) := by
  unfold run
  rw [h]

/-- The C7 counterexample request: the operation name collides with the
module's `consumer_id` data attribute. -/
def c7Request : AgentRunInput := { consumer_id := "x", func_name := "consumer_id" }

/-- C7 counterexample: for the unsupported operation name "consumer_id",
`getattr` returns the module's string attribute, calling it raises
`TypeError: str object is not callable`, and the resulting error
envelope's message does not name the operation. -/
theorem C7_counterexample :
    (run [] freshA c7Request).1.status = "error"
    ∧ (run [] freshA c7Request).1.message = some "str object is not callable"
    ∧ ¬ msgNames "str object is not callable" "consumer_id" := by
  refine ⟨rfl, rfl, ?_⟩
  unfold msgNames
  decide

/-- C7 amended: an operation name that is not a supported operation, not
one of the module's data attributes, and not underscore-prefixed (Python
attribute inheritance, outside the embedding) produces an error envelope
whose message is the caught `AttributeError` text, which names the
operation.  The names `agent` and `deployment` resolve to non-callable
pydantic instances: the envelope is an error carrying the caught
`TypeError` text.  The name `consumer_id` resolves to the stored
consumer key: an empty key is falsy and run returns the
"Invalid function name: consumer_id" envelope directly (line 117-118); a
non-empty key is truthy and the envelope carries the caught
"str object is not callable" `TypeError` text.  And `run` never raises:
whenever the dispatch path raises, `run` returns an error envelope
carrying exactly the exception's message. -/
theorem C7_unknown_operation_errors :
    (∀ (reg : Registry) (f : Fresh) (inp : AgentRunInput),
        inp.func_name ∉ methodNames → inp.func_name ∉ moduleAttrNames →
        underscoreInitial inp.func_name = false →
        (run reg f inp).1.status = "error"
        ∧ (run reg f inp).1.message = some (noAttrMsg inp.func_name)
        ∧ msgNames (noAttrMsg inp.func_name) inp.func_name)
    ∧ (∀ (reg : Registry) (f : Fresh) (inp : AgentRunInput),
        inp.func_name = "agent" ∨ inp.func_name = "deployment" →
        (run reg f inp).1.status = "error"
        ∧ (run reg f inp).1.message = some (notCallableMsg inp.func_name))
    ∧ (∀ (reg : Registry) (f : Fresh) (inp : AgentRunInput),
        inp.func_name = "consumer_id" →
        (run reg f inp).1.status = "error"
        ∧ ((getOrCreate reg f inp.consumer_id).1.consumer_id = "" →
            (run reg f inp).1.message = some (invalidFuncNameMsg "consumer_id"))
        ∧ ((getOrCreate reg f inp.consumer_id).1.consumer_id ≠ "" →
            (run reg f inp).1.message = some (notCallableMsg "consumer_id")))
    ∧ (∀ (reg : Registry) (f : Fresh) (inp : AgentRunInput) (msg : String),
        dispatchOp (getOrCreate reg f inp.consumer_id).1 inp.func_name
            (normalizeInput inp.func_input_data) = DispatchResult.raised msg →
        (run reg f inp).1 = { status := "error", message := some msg }) := by
  refine ⟨?_, ?_, ?_, ?_⟩
  · intro reg f inp h1 h2 h3
    have hd := dispatchOp_unknown (getOrCreate reg f inp.consumer_id).1 inp.func_name
      (normalizeInput inp.func_input_data) h1 h2 h3
    have hr := run_error_of_dispatch_raised reg f inp _ hd
    rw [hr]
    refine ⟨rfl, rfl, ?_⟩
    have hshape : noAttrMsg inp.func_name
        = "EconomicAgentModule object has no attribute " ++ inp.func_name ++ "" := by
      unfold noAttrMsg
      simp
    rw [hshape]
    exact msgNames_of_append _ _ _
  · intro reg f inp h
    have hd := dispatchOp_attr (getOrCreate reg f inp.consumer_id).1 inp.func_name
      (normalizeInput inp.func_input_data) h
    have hr := run_error_of_dispatch_raised reg f inp _ hd
    rw [hr]
    exact ⟨rfl, rfl⟩
  · intro reg f inp h
    obtain ⟨ck, fn, fi⟩ := inp
    have hfn : fn = "consumer_id" := h
    subst hfn
    have hd := dispatchOp_consumer_id (getOrCreate reg f ck).1 (normalizeInput fi)
    by_cases hkey : (getOrCreate reg f ck).1.consumer_id = ""
    · rw [if_pos hkey] at hd
      have hr := run_of_dispatch_ok reg f (AgentRunInput.mk ck "consumer_id" fi) _ _ hd
      refine ⟨?_, ?_, ?_⟩
      · rw [hr]
      · intro hcond
        rw [hr]
      · intro hcond
        exact absurd hkey hcond
    · rw [if_neg hkey] at hd
      have hr := run_error_of_dispatch_raised reg f (AgentRunInput.mk ck "consumer_id" fi)
        _ hd
      refine ⟨?_, ?_, ?_⟩
      · rw [hr]
      · intro hcond
        exact absurd hcond hkey
      · intro hcond
        rw [hr]
  · intro reg f inp msg h
    rw [run_error_of_dispatch_raised reg f inp msg h]

/-- The unknown-operation request of the C7 witness. -/
def c7UnknownRequest : AgentRunInput := { consumer_id := "x", func_name := "frobnicate" }

/-- The attribute-collision request of the C7 witness. -/
def c7AgentRequest : AgentRunInput := { consumer_id := "x", func_name := "agent" }

/-- The empty-consumer-key request of the C7 witness, reaching the
`if not method` falsy-attribute branch. -/
def c7EmptyKeyRequest : AgentRunInput := { consumer_id := "", func_name := "consumer_id" }

/-- Witness for C7 at the concrete unknown name "frobnicate", the
attribute name "agent", the name "consumer_id" with an empty and with a
non-empty consumer key, all from the empty registry. -/
theorem C7_unknown_operation_errors_witness :
    ((run [] freshA c7UnknownRequest).1.status = "error"
      ∧ (run [] freshA c7UnknownRequest).1.message = some (noAttrMsg "frobnicate")
      ∧ msgNames (noAttrMsg "frobnicate") "frobnicate")
    ∧ ((run [] freshA c7AgentRequest).1.status = "error"
      ∧ (run [] freshA c7AgentRequest).1.message = some (notCallableMsg "agent"))
    ∧ (run [] freshA c7EmptyKeyRequest).1.message
        = some (invalidFuncNameMsg "consumer_id")
    ∧ (run [] freshA c7Request).1.message = some (notCallableMsg "consumer_id")
    ∧ (run [] freshA c7UnknownRequest).1
        = { status := "error", message := some (noAttrMsg "frobnicate") } :=
  ⟨C7_unknown_operation_errors.1 [] freshA c7UnknownRequest (by decide) (by decide)
     (by decide),
   C7_unknown_operation_errors.2.1 [] freshA c7AgentRequest (Or.inl rfl),
   (C7_unknown_operation_errors.2.2.1 [] freshA c7EmptyKeyRequest rfl).2.1 rfl,
   (C7_unknown_operation_errors.2.2.1 [] freshA c7Request rfl).2.2 (by decide),
   C7_unknown_operation_errors.2.2.2 [] freshA c7UnknownRequest (noAttrMsg "frobnicate")
     rfl⟩

theorem dictGet_dictUpdate_not_mem (upd : SymDict) (d : SymDict) (s : String) (dflt : ℚ)
    (h : s ∉ upd.map Prod.fst) :
    dictGet (dictUpdate d upd) s dflt = dictGet d s dflt := by
  induction upd generalizing d with
  | nil => rfl
  | cons kv rest ih =>
    simp only [List.map_cons, List.mem_cons, not_or] at h
    have h1 : dictUpdate d (kv :: rest) = dictUpdate (dictSet d kv.1 kv.2) rest := rfl
    rw [h1, ih _ h.2, dictGet_dictSet, if_neg (fun he => h.1 he.symm)]

theorem dictGet_dictUpdate_mem (upd : SymDict) (d : SymDict) (s : String) (v : ℚ) (dflt : ℚ)
    (hnd : (upd.map Prod.fst).Nodup) (hmem : (s, v) ∈ upd) :
    dictGet (dictUpdate d upd) s dflt = v := by
  induction upd generalizing d with
  | nil => cases hmem
  | cons kv rest ih =>
    have h1 : dictUpdate d (kv :: rest) = dictUpdate (dictSet d kv.1 kv.2) rest := rfl
    rw [h1]
    rw [List.map_cons] at hnd
    have hnd' := List.nodup_cons.mp hnd
    rcases List.mem_cons.mp hmem with heq | hmem2
    · have hk : kv.1 = s := by rw [← heq]
      have hv : kv.2 = v := by rw [← heq]
      have hnot : s ∉ rest.map Prod.fst := hk ▸ hnd'.1
      rw [dictGet_dictUpdate_not_mem rest _ s dflt hnot, dictGet_dictSet, if_pos hk, hv]
    · exact ih _ hnd'.2 hmem2

/-- C8: `create` writes every seeded symbol's amount directly into
`token_balances` (per-symbol overwrite via `dict.update`), records no
transaction, and an immediate `get_token_balance` for a seeded symbol
returns the seeded value while the transaction history is unchanged. -/
theorem C8_create_seeds_directly (m : EconomicAgentModule) (ag : EconomicAgent) (p : Portfolio)
    (hag : m.agent = some ag) (hold : ag.holdings = some p)
    (h : SymDict) (hnd : (h.map Prod.fst).Nodup) (s : String) (v : ℚ) (hmem : (s, v) ∈ h) :
    ∃ env m1 ag1 p1,
      m.create (some h) = Except.ok (env, m1)
      ∧ env.status = "success"
      ∧ m1.agent = some ag1
      ∧ ag1.holdings = some p1
      ∧ p1.get_token_balance s = v
      ∧ (m1.get_token_balance (some s)).1.status = "success"
      ∧ (m1.get_token_balance (some s)).1.balance = some v
      ∧ p1.transaction_history = p.transaction_history := by
  cases h with
  | nil => cases hmem
  | cons kv t =>
    have hseed : m.createSeed (some (kv :: t))
        = Except.ok (EconomicAgentModule.mk m.consumer_id
            (some (EconomicAgent.mk ag.id ag.rewards ag.total_reward ag.wallet
              (some (Portfolio.mk (dictUpdate p.token_balances (kv :: t))
                p.transaction_history))))) := by
      unfold EconomicAgentModule.createSeed
      rw [hag]
      simp only [symFalsy, List.isEmpty_cons, Bool.false_eq_true, if_false]
      rw [hold]
      rfl
    have hcreate : m.create (some (kv :: t))
        = Except.ok
            ({ status := "success"
             , agent_id := some ag.id
             , wallet := some ag.wallet
             , holdings := some (some (Portfolio.mk
                 (dictUpdate p.token_balances (kv :: t)) p.transaction_history)) }
            , EconomicAgentModule.mk m.consumer_id
                (some (EconomicAgent.mk ag.id ag.rewards ag.total_reward ag.wallet
                  (some (Portfolio.mk (dictUpdate p.token_balances (kv :: t))
                    p.transaction_history))))) := by
      unfold EconomicAgentModule.create
      rw [hseed]
    refine ⟨_, _, _, _, hcreate, rfl, rfl, rfl, ?_, rfl, ?_, rfl⟩
    · exact dictGet_dictUpdate_mem (kv :: t) p.token_balances s v 0 hnd hmem
    · show some (dictGet (dictUpdate p.token_balances (kv :: t)) s 0) = some v
      exact congrArg some (dictGet_dictUpdate_mem (kv :: t) p.token_balances s v 0 hnd hmem)

/-- The initial holdings of the C8 witness. -/
def c8Holdings : SymDict := [("ETH", 1), ("NAPTHA", 100)]

/-- Witness for C8: seeding ETH and NAPTHA on a fresh module. -/
theorem C8_create_seeds_directly_witness :
    ∃ env m1 ag1 p1,
      modA.create (some c8Holdings) = Except.ok (env, m1)
      ∧ env.status = "success"
      ∧ m1.agent = some ag1
      ∧ ag1.holdings = some p1
      ∧ p1.get_token_balance "ETH" = 1
      ∧ (m1.get_token_balance (some "ETH")).1.status = "success"
      ∧ (m1.get_token_balance (some "ETH")).1.balance = some 1
      ∧ p1.transaction_history = ({} : Portfolio).transaction_history :=
  C8_create_seeds_directly modA agA {} rfl rfl c8Holdings (by decide) "ETH" 1 (by decide)

theorem make_wf (key : String) (f : Fresh) :
    ModuleWF (EconomicAgentModule.make key f) :=
  ⟨_, _, _, rfl, rfl, rfl⟩

theorem regFind_mem (reg : Registry) (key : String) (m : EconomicAgentModule)
    (h : regFind reg key = some m) : (key, m) ∈ reg := by
  induction reg with
  | nil => cases h
  | cons kv rest ih =>
    obtain ⟨k0, m0⟩ := kv
    by_cases hk : k0 = key
    · subst hk
      unfold regFind at h
      rw [if_pos rfl] at h
      injection h with h
      subst h
      exact List.mem_cons_self _ _
    · simp only [regFind, if_neg hk] at h
      exact List.mem_cons_of_mem _ (ih h)

theorem regFind_regSet (reg : Registry) (key : String) (m : EconomicAgentModule) :
    regFind (regSet reg key m) key = some m := by
  induction reg with
  | nil => simp [regFind, regSet]
  | cons kv rest ih =>
    obtain ⟨k0, m0⟩ := kv
    by_cases hk : k0 = key
    · subst hk
      simp [regSet, regFind]
    · simp [regSet, regFind, hk, ih]

theorem regSet_wf (reg : Registry) (key : String) (m : EconomicAgentModule)
    (hreg : RegWF reg) (hm : ModuleWF m) : RegWF (regSet reg key m) := by
  induction reg with
  | nil =>
    intro k m2 hmem
    simp only [regSet, List.mem_singleton, Prod.mk.injEq] at hmem
    rw [hmem.2]
    exact hm
  | cons kv rest ih =>
    obtain ⟨k0, m0⟩ := kv
    have hrest : RegWF rest := fun k2 m2 h2 => hreg k2 m2 (List.mem_cons_of_mem _ h2)
    intro k m2 hmem
    by_cases hk : k0 = key
    · subst hk
      simp only [regSet, if_pos rfl, if_true] at hmem
      rcases List.mem_cons.mp hmem with heq | hmem2
      · rw [((Prod.mk.injEq _ _ _ _).mp heq).2]
        exact hm
      · exact hrest k m2 hmem2
    · simp only [regSet, if_neg hk] at hmem
      rcases List.mem_cons.mp hmem with heq | hmem2
      · rw [((Prod.mk.injEq _ _ _ _).mp heq).2]
        exact hreg k0 m0 (List.mem_cons_self _ _)
      · exact ih hrest k m2 hmem2

theorem getOrCreate_wf (reg : Registry) (f : Fresh) (key : String) (hreg : RegWF reg) :
    ModuleWF (getOrCreate reg f key).1 ∧ RegWF (getOrCreate reg f key).2 := by
  unfold getOrCreate
  cases hfind : regFind reg key with
  | some m => exact ⟨hreg key m (regFind_mem reg key m hfind), hreg⟩
  | none => exact ⟨make_wf key f, regSet_wf reg key _ hreg (make_wf key f)⟩

theorem agent_add_transaction_fields (ag : EconomicAgent) (tx : PyDict) (p : Portfolio)
    (hold : ag.holdings = some p) :
    (ag.add_transaction tx).holdings = some (p.record_transaction tx)
    ∧ (ag.add_transaction tx).wallet = ag.wallet
    ∧ (ag.add_transaction tx).id = ag.id := by
  unfold EconomicAgent.add_transaction
  rw [hold]
  exact ⟨rfl, rfl, rfl⟩

theorem module_add_transaction_wf (m : EconomicAgentModule) (tx : FuncInputData)
    (hwf : ModuleWF m) : ModuleWF (m.add_transaction tx).2 := by
  obtain ⟨ag, p, w, hag, hold, hw⟩ := hwf
  have hmwf : ModuleWF m := ⟨ag, p, w, hag, hold, hw⟩
  unfold EconomicAgentModule.add_transaction
  rw [hag]
  dsimp only
  cases tx with
  | null => exact hmwf
  | nonDict => exact hmwf
  | dict d =>
    dsimp only
    have hs : ModuleWF
        { consumer_id := m.consumer_id, agent := some (ag.add_transaction d) } := by
      obtain ⟨hh1, hh2, hh3⟩ := agent_add_transaction_fields ag d p hold
      exact ⟨ag.add_transaction d, p.record_transaction d, w, rfl, hh1, hh2.trans hw⟩
    by_cases h1 : d.type = none ∨ d.symbol = none ∨ d.amount = none
    · rw [if_pos h1]
      exact hmwf
    · rw [if_neg h1]
      by_cases h2 : d.type.getD "" ∉ txAllowedTypes
      · rw [if_pos h2]
        exact hmwf
      · rw [if_neg h2]
        by_cases h3 : (d.type.getD "" = "withdraw" ∨ d.type.getD "" = "trade")
            ∧ d.amount.getD 0 < 0
        · rw [if_pos h3]
          by_cases h4 : ag.get_token_balance (d.symbol.getD "") < |d.amount.getD 0|
          · rw [if_pos h4]
            exact hmwf
          · rw [if_neg h4]
            exact hs
        · rw [if_neg h3]
          exact hs

theorem create_ok_of_wf (m : EconomicAgentModule) (ihold : Option SymDict)
    (hwf : ModuleWF m) :
    ∃ env m1 ag ag1,
      m.create ihold = Except.ok (env, m1)
      ∧ env.status = "success"
      ∧ m.agent = some ag
      ∧ env.agent_id = some ag.id
      ∧ m1.agent = some ag1
      ∧ ag1.id = ag.id
      ∧ ModuleWF m1 := by
  obtain ⟨ag, p, w, hag, hold, hw⟩ := hwf
  by_cases hfal : symFalsy ihold = true
  · have hseed : m.createSeed ihold = Except.ok m := by
      unfold EconomicAgentModule.createSeed
      rw [if_pos hfal]
    refine ⟨{ status := "success", agent_id := some ag.id
            , wallet := some ag.wallet, holdings := some ag.holdings }, m, ag, ag,
            ?_, rfl, hag, rfl, hag, rfl, ⟨ag, p, w, hag, hold, hw⟩⟩
    unfold EconomicAgentModule.create
    rw [hseed]
    dsimp only
    rw [hag]
  · have hfal2 : symFalsy ihold = false := by
      cases hb : symFalsy ihold
      · rfl
      · exact absurd hb hfal
    have hseed : m.createSeed ihold
        = Except.ok (EconomicAgentModule.mk m.consumer_id
            (some (EconomicAgent.mk ag.id ag.rewards ag.total_reward ag.wallet
              (some (Portfolio.mk (dictUpdate p.token_balances (ihold.getD []))
                p.transaction_history))))) := by
      unfold EconomicAgentModule.createSeed
      rw [hfal2]
      simp only [Bool.false_eq_true, if_false]
      rw [hag]
      dsimp only
      rw [hold]
    refine ⟨{ status := "success", agent_id := some ag.id
            , wallet := some ag.wallet
            , holdings := some (some (Portfolio.mk
                (dictUpdate p.token_balances (ihold.getD [])) p.transaction_history)) },
            EconomicAgentModule.mk m.consumer_id
              (some (EconomicAgent.mk ag.id ag.rewards ag.total_reward ag.wallet
                (some (Portfolio.mk (dictUpdate p.token_balances (ihold.getD []))
                  p.transaction_history)))),
            ag,
            EconomicAgent.mk ag.id ag.rewards ag.total_reward ag.wallet
              (some (Portfolio.mk (dictUpdate p.token_balances (ihold.getD []))
                p.transaction_history)),
            ?_, rfl, hag, rfl, rfl, rfl,
            ⟨_, _, w, rfl, rfl, hw⟩⟩
    unfold EconomicAgentModule.create
    rw [hseed]

theorem get_token_balance_state (m : EconomicAgentModule) (s : Option String) :
    (m.get_token_balance s).2 = m := by
  unfold EconomicAgentModule.get_token_balance
  cases m.agent <;> rfl

theorem get_portfolio_value_state (m : EconomicAgentModule) (pf : Option SymDict) (dp : ℚ) :
    (m.get_portfolio_value pf dp).2 = m := by
  unfold EconomicAgentModule.get_portfolio_value
  cases m.agent <;> rfl

theorem sign_transaction_state (m : EconomicAgentModule) (d : PyDict) :
    (m.sign_transaction d).2 = m := by
  unfold EconomicAgentModule.sign_transaction
  cases m.agent with
  | none => rfl
  | some a =>
    dsimp only
    cases a.sign_transaction d <;> rfl

theorem dispatchOp_preserves_wf (m : EconomicAgentModule) (name : String) (d : FuncInputData)
    (env : Envelope) (m2 : EconomicAgentModule) (hwf : ModuleWF m)
    (h : dispatchOp m name d = DispatchResult.ok env m2) : ModuleWF m2 := by
  unfold dispatchOp at h
  by_cases h1 : name = "create"
  · rw [if_pos h1] at h
    cases d with
    | null => cases h
    | nonDict => cases h
    | dict d0 =>
      dsimp only at h
      obtain ⟨env3, m3, ag, ag1, hc, _, _, _, _, _, hwf3⟩ :=
        create_ok_of_wf m d0.initial_holdings hwf
      rw [hc] at h
      cases h
      exact hwf3
  · rw [if_neg h1] at h
    by_cases h2 : name = "add_transaction"
    · rw [if_pos h2] at h
      cases h
      exact module_add_transaction_wf m d hwf
    · rw [if_neg h2] at h
      by_cases h3 : name = "get_token_balance"
      · rw [if_pos h3] at h
        cases d with
        | null => cases h
        | nonDict => cases h
        | dict d0 =>
          dsimp only at h
          cases h
          rw [get_token_balance_state]
          exact hwf
      · rw [if_neg h3] at h
        by_cases h4 : name = "get_portfolio_value"
        · rw [if_pos h4] at h
          cases d with
          | null => cases h
          | nonDict => cases h
          | dict d0 =>
            dsimp only at h
            cases h
            rw [get_portfolio_value_state]
            exact hwf
        · rw [if_neg h4] at h
          by_cases h5 : name = "sign_transaction"
          · rw [if_pos h5] at h
            cases d with
            | null => cases h
            | nonDict => cases h
            | dict d0 =>
              dsimp only at h
              cases h
              rw [sign_transaction_state]
              exact hwf
          · rw [if_neg h5] at h
            by_cases h6 : name = "agent"
            · rw [if_pos h6] at h
              cases h
            · rw [if_neg h6] at h
              by_cases h7 : name = "deployment"
              · rw [if_pos h7] at h
                cases h
              · rw [if_neg h7] at h
                by_cases h8 : name = "consumer_id"
                · rw [if_pos h8] at h
                  by_cases h9 : m.consumer_id = ""
                  · rw [if_pos h9] at h
                    cases h
                    exact hwf
                  · rw [if_neg h9] at h
                    cases h
                · rw [if_neg h8] at h
                  by_cases h10 : underscoreInitial name = true
                  · rw [if_pos h10] at h
                    cases h
                  · rw [if_neg h10] at h
                    cases h

theorem run_preserves_wf (reg : Registry) (f : Fresh) (inp : AgentRunInput)
    (hreg : RegWF reg) : RegWF (run reg f inp).2 := by
  obtain ⟨hm, hr⟩ := getOrCreate_wf reg f inp.consumer_id hreg
  unfold run
  cases hd : dispatchOp (getOrCreate reg f inp.consumer_id).1 inp.func_name
      (normalizeInput inp.func_input_data) with
  | raised msg => exact hr
  | unmodeled => exact hr
  | ok env m2 => exact regSet_wf _ _ _ hr (dispatchOp_preserves_wf _ _ _ _ _ hm hd)

theorem getOrCreate_found (reg : Registry) (f : Fresh) (key : String)
    (m : EconomicAgentModule) (h : regFind reg key = some m) :
    getOrCreate reg f key = (m, reg) := by
  unfold getOrCreate
  rw [h]

theorem run_create (reg : Registry) (f : Fresh) (key : String) (a : FuncInputData) (d : PyDict)
    (hnorm : normalizeInput a = FuncInputData.dict d)
    (env : Envelope) (m1 : EconomicAgentModule)
    (hc : (getOrCreate reg f key).1.create d.initial_holdings = Except.ok (env, m1)) :
    run reg f (AgentRunInput.mk key "create" a)
      = (env, regSet (getOrCreate reg f key).2 key m1) := by
  unfold run
  dsimp only
  rw [hnorm]
  rw [show dispatchOp (getOrCreate reg f key).1 "create" (FuncInputData.dict d)
      = (match (getOrCreate reg f key).1.create d.initial_holdings with
         | Except.ok (env2, m2) => DispatchResult.ok env2 m2
         | Except.error e => DispatchResult.raised e) from rfl]
  rw [hc]

/-- C9: two back-to-back `create` dispatches for the same caller key
(any well-formed starting registry, any null-or-dict payloads, any
entropy) both succeed and report the same `agent_id`: the second call
finds the stored module and reuses its agent instead of constructing a
new one. -/
theorem C9_create_idempotent_agent_id (reg : Registry) (f1 f2 : Fresh) (key : String)
    (a1 a2 : FuncInputData) (h1 : a1 ≠ FuncInputData.nonDict) (h2 : a2 ≠ FuncInputData.nonDict)
    (hreg : RegWF reg) :
    ∃ theId,
      (run reg f1 (AgentRunInput.mk key "create" a1)).1.status = "success"
      ∧ (run reg f1 (AgentRunInput.mk key "create" a1)).1.agent_id = some theId
      ∧ (run (run reg f1 (AgentRunInput.mk key "create" a1)).2 f2
          (AgentRunInput.mk key "create" a2)).1.status = "success"
      ∧ (run (run reg f1 (AgentRunInput.mk key "create" a1)).2 f2
          (AgentRunInput.mk key "create" a2)).1.agent_id = some theId := by
  obtain ⟨d1, hn1⟩ : ∃ d, normalizeInput a1 = FuncInputData.dict d := by
    cases a1 with
    | null => exact ⟨{}, rfl⟩
    | nonDict => exact absurd rfl h1
    | dict d => exact ⟨d, rfl⟩
  obtain ⟨d2, hn2⟩ : ∃ d, normalizeInput a2 = FuncInputData.dict d := by
    cases a2 with
    | null => exact ⟨{}, rfl⟩
    | nonDict => exact absurd rfl h2
    | dict d => exact ⟨d, rfl⟩
  obtain ⟨hwfM, hwfR⟩ := getOrCreate_wf reg f1 key hreg
  obtain ⟨env, m1, ag, ag1, hc, hst, hMag, hagid, hm1ag, hid, hm1wf⟩ :=
    create_ok_of_wf (getOrCreate reg f1 key).1 d1.initial_holdings hwfM
  have hrun1 := run_create reg f1 key a1 d1 hn1 env m1 hc
  have hfind2 : regFind (regSet (getOrCreate reg f1 key).2 key m1) key = some m1 :=
    regFind_regSet _ _ _
  have hgc2 : getOrCreate (regSet (getOrCreate reg f1 key).2 key m1) f2 key
      = (m1, regSet (getOrCreate reg f1 key).2 key m1) :=
    getOrCreate_found _ f2 key m1 hfind2
  obtain ⟨env2, m2, ag1x, ag2, hc2, hst2, hm1agx, hagid2, hm2ag, hid2, hm2wf⟩ :=
    create_ok_of_wf m1 d2.initial_holdings hm1wf
  have hc2x : (getOrCreate (regSet (getOrCreate reg f1 key).2 key m1) f2 key).1.create
      d2.initial_holdings = Except.ok (env2, m2) := by
    rw [hgc2]
    exact hc2
  have hrun2 := run_create (regSet (getOrCreate reg f1 key).2 key m1) f2 key a2 d2 hn2
    env2 m2 hc2x
  have hagx : ag1x = ag1 := Option.some.inj ((hm1agx.symm).trans hm1ag)
  refine ⟨ag.id, ?_, ?_, ?_, ?_⟩
  · rw [hrun1]
    exact hst
  · rw [hrun1]
    exact hagid
  · rw [hrun1]
    dsimp only
    rw [hrun2]
    exact hst2
  · rw [hrun1]
    dsimp only
    rw [hrun2]
    rw [hagid2, hagx, hid]

/-- Witness for C9: two creates from the empty registry with distinct
entropy report the same agent id. -/
theorem C9_create_idempotent_agent_id_witness :
    ∃ theId,
      (run [] freshA (AgentRunInput.mk "k" "create" FuncInputData.null)).1.status = "success"
      ∧ (run [] freshA (AgentRunInput.mk "k" "create" FuncInputData.null)).1.agent_id
          = some theId
      ∧ (run (run [] freshA (AgentRunInput.mk "k" "create" FuncInputData.null)).2 freshB
          (AgentRunInput.mk "k" "create" FuncInputData.null)).1.status = "success"
      ∧ (run (run [] freshA (AgentRunInput.mk "k" "create" FuncInputData.null)).2 freshB
          (AgentRunInput.mk "k" "create" FuncInputData.null)).1.agent_id = some theId :=
  C9_create_idempotent_agent_id [] freshA freshB "k" FuncInputData.null FuncInputData.null
    (by decide) (by decide) (fun k m hm => absurd hm (List.not_mem_nil _))

/-- C10: every module the dispatcher constructs carries an agent with a
generated wallet and holdings (and the generated address and private key
are non-empty whenever key generation yields non-empty strings, as
`eth_account` does); consequently `EconomicAgent.sign_transaction` never
returns the falsy empty dict on such a module, the dispatcher's
"Failed to sign transaction" branch is unreachable (the sign envelope
carries the spread status "signed"), and `run` preserves this
well-formedness across every request, so it holds of every module the
dispatcher ever stores. -/
theorem C10_sign_failure_unreachable :
    (∀ (key : String) (f : Fresh), ModuleWF (EconomicAgentModule.make key f))
    ∧ (∀ (key : String) (f : Fresh), f.keys.address ≠ "" → f.keys.privateKey ≠ "" →
        ∃ ag w, (EconomicAgentModule.make key f).agent = some ag
          ∧ ag.wallet = some w
          ∧ w.address = some f.keys.address
          ∧ w.private_key = some f.keys.privateKey
          ∧ w.address ≠ some "" ∧ w.address ≠ none
          ∧ w.private_key ≠ some "" ∧ w.private_key ≠ none)
    ∧ (∀ m : EconomicAgentModule, ModuleWF m → ∀ tx : PyDict,
        ∃ ag, m.agent = some ag ∧ ag.sign_transaction tx ≠ none)
    ∧ (∀ m : EconomicAgentModule, ModuleWF m → ∀ tx : PyDict,
        (m.sign_transaction tx).1.message ≠ some "Failed to sign transaction"
        ∧ (m.sign_transaction tx).1.status = "signed"
        ∧ (m.sign_transaction tx).1.signed = some true)
    ∧ (∀ (reg : Registry) (f : Fresh) (inp : AgentRunInput),
        RegWF reg → RegWF (run reg f inp).2) := by
  refine ⟨fun key f => make_wf key f, ?_, ?_, ?_,
    fun reg f inp hreg => run_preserves_wf reg f inp hreg⟩
  · intro key f ha hk
    refine ⟨_, _, rfl, rfl, rfl, rfl, ?_, ?_, ?_, ?_⟩
    · intro hcon
      exact ha (Option.some.inj hcon)
    · intro hcon
      cases hcon
    · intro hcon
      exact hk (Option.some.inj hcon)
    · intro hcon
      cases hcon
  · intro m hwf tx
    obtain ⟨ag, p, w, hag, hold, hw⟩ := hwf
    refine ⟨ag, hag, ?_⟩
    unfold EconomicAgent.sign_transaction
    rw [hw]
    intro hcon
    cases hcon
  · intro m hwf tx
    obtain ⟨ag, p, w, hag, hold, hw⟩ := hwf
    unfold EconomicAgentModule.sign_transaction
    rw [hag]
    dsimp only
    rw [show ag.sign_transaction tx = some (w.sign_transaction tx) by
      unfold EconomicAgent.sign_transaction
      rw [hw]]
    refine ⟨?_, rfl, rfl⟩
    intro hcon
    cases hcon

/-- Witness for C10 at a concrete fresh module, key pair and payload. -/
theorem C10_sign_failure_unreachable_witness :
    ModuleWF (EconomicAgentModule.make "alice" freshA)
    ∧ (∃ ag w, (EconomicAgentModule.make "alice" freshA).agent = some ag
        ∧ ag.wallet = some w
        ∧ w.address = some freshA.keys.address
        ∧ w.private_key = some freshA.keys.privateKey
        ∧ w.address ≠ some "" ∧ w.address ≠ none
        ∧ w.private_key ≠ some "" ∧ w.private_key ≠ none)
    ∧ (∃ ag, modA.agent = some ag ∧ ag.sign_transaction c6TxData ≠ none)
    ∧ ((modA.sign_transaction c6TxData).1.message ≠ some "Failed to sign transaction"
        ∧ (modA.sign_transaction c6TxData).1.status = "signed"
        ∧ (modA.sign_transaction c6TxData).1.signed = some true)
    ∧ RegWF (run [] freshA c2Request).2 :=
  ⟨C10_sign_failure_unreachable.1 "alice" freshA,
   C10_sign_failure_unreachable.2.1 "alice" freshA (by decide) (by decide),
   C10_sign_failure_unreachable.2.2.1 modA (make_wf "alice" freshA) c6TxData,
   C10_sign_failure_unreachable.2.2.2.1 modA (make_wf "alice" freshA) c6TxData,
   C10_sign_failure_unreachable.2.2.2.2 [] freshA c2Request
     (fun k m hm => absurd hm (List.not_mem_nil _))⟩

end EconAgent
